import Mathlib

/-!
Shallow embedding of the core of `valutetrade_hub` (files
`core/models.py`, `core/usecases.py`, `core/currencies.py`, and the buy/sell
handlers of `cli/interface.py`), together with theorems settling the frozen
claims about it.

Modelling conventions:
* Python `float` values are modelled by `FVal`: either an exact rational
  (`FVal.num`) or one of the IEEE special values `nan`, `inf`, `ninf`.
  Finite `+`, `-`, `*` (`fvalAdd`, `fvalSub`, `fvalMul`) are the
  exact-arithmetic idealization; the rounded refinement that matches
  CPython's binary64 arithmetic bit for bit is `fvalAddD` / `fvalSubD`,
  built on `roundB64`, and is used where rounding is load-bearing (the
  round-trip claim).  The special-value propagation and the comparison
  semantics (`nan` compares false) follow IEEE-754 as Python implements
  them.
* The JSON files behind `RateStorage` and `PortfolioStorage` are modelled as
  in-memory association lists threaded through every operation
  (state-passing style).  `RateState` additionally carries a log of the
  `update_rate` calls performed, so that write-back behaviour is observable.
* Python exceptions are modelled with `Except`: an operation that can raise
  returns `Except PyErr α`; operations that also mutate the persistent files
  return the file state alongside, also on the raising paths.
* User-visible message strings are abstracted to the constructors of `Msg`;
  each constructor stands for exactly one literal return string of the
  source (the interpolated numbers in those strings are presentation only
  and are dropped).
-/

deriving instance DecidableEq for Except

namespace ValuteTradeHub

/-- Model of a Python `float`: an exact rational or an IEEE special value. -/
inductive FVal where
  | num (q : ℚ)
  | nan
  | inf
  | ninf
deriving DecidableEq

/-- Python `x != x`, true exactly for NaN. -/
def FVal.isNaN : FVal → Bool
  | .nan => true
  | _ => false

/-- Python `abs(x) == float('inf')`. -/
def FVal.isInfinite : FVal → Bool
  | .inf => true
  | .ninf => true
  | _ => false

/-- Python `<` on floats: any comparison involving NaN is false. -/
def fvalLt : FVal → FVal → Bool
  | .nan, _ => false
  | _, .nan => false
  | .num a, .num b => decide (a < b)
  | .num _, .inf => true
  | .num _, .ninf => false
  | .inf, _ => false
  | .ninf, .ninf => false
  | .ninf, _ => true

/-- Python `<=` on floats: any comparison involving NaN is false. -/
def fvalLe : FVal → FVal → Bool
  | .nan, _ => false
  | _, .nan => false
  | .num a, .num b => decide (a ≤ b)
  | .num _, .inf => true
  | .num _, .ninf => false
  | .inf, .inf => true
  | .inf, _ => false
  | .ninf, _ => true

/-- Python `+` on floats: special values per IEEE, finite addition as the
EXACT rational sum (the rounded binary64 refinement is `fvalAddD`). -/
def fvalAdd : FVal → FVal → FVal
  | .nan, _ => .nan
  | _, .nan => .nan
  | .num a, .num b => .num (a + b)
  | .num _, .inf => .inf
  | .num _, .ninf => .ninf
  | .inf, .ninf => .nan
  | .inf, _ => .inf
  | .ninf, .inf => .nan
  | .ninf, _ => .ninf

/-- Python unary `-` on floats. -/
def fvalNeg : FVal → FVal
  | .num a => .num (-a)
  | .nan => .nan
  | .inf => .ninf
  | .ninf => .inf

/-- Python `-` on floats, via `a + (-b)`: exact on finite values (the
rounded binary64 refinement is `fvalSubD`). -/
def fvalSub (a b : FVal) : FVal := fvalAdd a (fvalNeg b)

/-- Python `*` on floats (finite multiplication exact, specials per IEEE,
`inf * 0 = nan`). -/
def fvalMul : FVal → FVal → FVal
  | .nan, _ => .nan
  | _, .nan => .nan
  | .num a, .num b => .num (a * b)
  | .num a, .inf => if 0 < a then .inf else if a < 0 then .ninf else .nan
  | .num a, .ninf => if 0 < a then .ninf else if a < 0 then .inf else .nan
  | .inf, .num b => if 0 < b then .inf else if b < 0 then .ninf else .nan
  | .ninf, .num b => if 0 < b then .ninf else if b < 0 then .inf else .nan
  | .inf, .inf => .inf
  | .inf, .ninf => .ninf
  | .ninf, .inf => .ninf
  | .ninf, .ninf => .inf

/-- Number of binary digits of `n`, by fuel recursion (the fuel `n` is
ample since the argument halves each step); `bitlen 0 = 0`,
`2 ^ (bitlen n - 1) ≤ n < 2 ^ bitlen n` for `n > 0`. -/
def bitlenAux : Nat → Nat → Nat
  | 0, _ => 0
  | fuel + 1, n => if n = 0 then 0 else bitlenAux fuel (n / 2) + 1

/-- See `bitlenAux`. -/
def bitlen (n : Nat) : Nat := bitlenAux n n

/-- `2 ^ e` as a rational, for an integer exponent. -/
def ratPow2 (e : ℤ) : ℚ :=
  if 0 ≤ e then ((2 ^ e.toNat : ℕ) : ℚ) else 1 / ((2 ^ (-e).toNat : ℕ) : ℚ)

/-- Round a rational to the nearest integer, ties to even (the IEEE-754
default rounding of the fractional part). -/
def roundNE (x : ℚ) : ℤ :=
  let fl : ℤ := Int.fdiv x.num (x.den : ℤ)
  let fr : ℚ := x - (fl : ℚ)
  if fr < 1 / 2 then fl
  else if 1 / 2 < fr then fl + 1
  else if fl % 2 = 0 then fl else fl + 1

/-- Round a POSITIVE rational in the normal binary64 range to the nearest
IEEE-754 double: find the exponent `e` with `2 ^ e ≤ q < 2 ^ (e + 1)`
(`e0` from the bit lengths is off by at most one and is corrected by a
comparison), scale to a 53-bit significand, round ties-to-even, and scale
back.  Subnormal and overflow handling is not needed for the magnitudes
used here and is not modelled. -/
def roundB64Pos (q : ℚ) : ℚ :=
  let e0 : ℤ := (bitlen q.num.toNat : ℤ) - (bitlen q.den : ℤ)
  let e : ℤ := if q < ratPow2 e0 then e0 - 1 else e0
  ((roundNE (q * ratPow2 (52 - e)) : ℤ) : ℚ) * ratPow2 (e - 52)

/-- Round a rational to the nearest IEEE-754 binary64 value (normal range;
zero and sign handled directly, see `roundB64Pos`). -/
def roundB64 (q : ℚ) : ℚ :=
  if q = 0 then 0
  else if q < 0 then -(roundB64Pos (-q))
  else roundB64Pos q

/-- Python float `+` with its actual IEEE-754 binary64 rounding: the exact
sum of `fvalAdd`, rounded to the nearest double.  `fvalAdd` is the
exact-arithmetic idealization; this is the rounded refinement that matches
what CPython computes bit for bit (e.g.
`fvalAddD (num (1 / 10)) (num (2 / 10))` is `0.30000000000000004`, not
`3 / 10`, once the inputs are themselves rounded). -/
def fvalAddD (a b : FVal) : FVal :=
  match fvalAdd a b with
  | .num q => .num (roundB64 q)
  | x => x

/-- Python float `-` with its actual IEEE-754 binary64 rounding; rounded
refinement of the exact `fvalSub`.  See `fvalAddD`. -/
def fvalSubD (a b : FVal) : FVal :=
  match fvalSub a b with
  | .num q => .num (roundB64 q)
  | x => x

/-- The Python exceptions the embedded code can raise, one constructor per
distinct raise site in `core/models.py`. -/
inductive PyErr where
  /-- `TypeError("Сумма должна быть числом")` — unreachable in the model,
  where every amount is already numeric. -/
  | typeErr
  /-- `ValueError('Невозможно пополнить баланс на отрицательную сумму')`
  from `Wallet.deposit` when `amount <= 0`. -/
  | depositNonPositive
  /-- `ValueError('Невозможно снять такую сумму')` from `Wallet.withdraw`
  when `amount <= 0`. -/
  | withdrawNonPositive
  /-- `ValueError('Недостаточно средств')` from `Wallet.withdraw` when
  `balance < amount`. -/
  | withdrawInsufficient
  /-- `ValueError('Невозможно установить отрицательный баланс')` from the
  `balance` setter when `amount < 0`. -/
  | setNegative
  /-- `ValueError("Некорректное значение баланса")` from the `balance`
  setter when the new value is infinite or NaN. -/
  | setNonFinite
deriving DecidableEq

/-- `models.Wallet`: `_currency_code` and `_balance`. -/
structure Wallet where
  currency_code : String
  balance : FVal
deriving DecidableEq

/-- The `balance` property setter of `models.Wallet`, lines 115-125:
rejects `amount < 0`, then rejects infinite or NaN values, otherwise stores
`float(amount)`.  The `isinstance` guard (`TypeError`) is unreachable here
since `FVal` is always numeric.  Note `-inf < 0` is true, so `-inf` is
rejected by the first check. -/
def Wallet.balanceSet (w : Wallet) (amount : FVal) : Except PyErr Wallet :=
  if fvalLt amount (.num 0) then .error .setNegative
  else if amount.isInfinite || amount.isNaN then .error .setNonFinite
  else .ok { w with balance := amount }

/-- `Wallet.__init__(currency_code, balance)`: sets `_balance = 0.0` then
assigns through the `balance` setter, which may raise. -/
def Wallet.init (currency_code : String) (balance : FVal) : Except PyErr Wallet :=
  Wallet.balanceSet { currency_code := currency_code, balance := .num 0 } balance

/-- `Wallet.deposit`, lines 81-88: rejects `amount <= 0`, then executes
`self.balance += amount`, i.e. assigns `balance + amount` through the
setter.  (The `print` call is presentation only.) -/
def Wallet.deposit (w : Wallet) (amount : FVal) : Except PyErr Wallet :=
  if fvalLe amount (.num 0) then .error .depositNonPositive
  else w.balanceSet (fvalAdd w.balance amount)

/-- `Wallet.withdraw`, lines 90-99: rejects `amount <= 0`, then rejects
`balance < amount`, then executes `self.balance -= amount` through the
setter. -/
def Wallet.withdraw (w : Wallet) (amount : FVal) : Except PyErr Wallet :=
  if fvalLe amount (.num 0) then .error .withdrawNonPositive
  else if fvalLt w.balance amount then .error .withdrawInsufficient
  else w.balanceSet (fvalSub w.balance amount)

/-- Calling convention of a mutating method on a Python object: on success
the object holds the new state, on an exception the object is unchanged
(the only field assignment in `deposit`/`withdraw`/the setter is the final
`self._balance = float(amount)` of the setter, after all checks).  Returns
the wallet after the call and whether the call succeeded. -/
def Wallet.depositRun (w : Wallet) (amount : FVal) : Wallet × Bool :=
  match w.deposit amount with
  | .ok w' => (w', true)
  | .error _ => (w, false)

/-- Run semantics of `Wallet.withdraw`; see `Wallet.depositRun`. -/
def Wallet.withdrawRun (w : Wallet) (amount : FVal) : Wallet × Bool :=
  match w.withdraw amount with
  | .ok w' => (w', true)
  | .error _ => (w, false)

/-- Run semantics of the `balance` setter; see `Wallet.depositRun`. -/
def Wallet.balanceSetRun (w : Wallet) (amount : FVal) : Wallet × Bool :=
  match w.balanceSet amount with
  | .ok w' => (w', true)
  | .error _ => (w, false)

/-- `Wallet.deposit` under the program's actual IEEE-754 double
arithmetic: identical checks and store, with `self.balance + amount`
rounded to the nearest binary64 value as CPython computes it
(`fvalAddD` in place of the exact `fvalAdd`; the comparisons and the
setter involve no arithmetic and are exact on representable values). -/
def Wallet.depositD (w : Wallet) (amount : FVal) : Except PyErr Wallet :=
  if fvalLe amount (.num 0) then .error .depositNonPositive
  else w.balanceSet (fvalAddD w.balance amount)

/-- `Wallet.withdraw` under the program's actual IEEE-754 double
arithmetic; see `Wallet.depositD`. -/
def Wallet.withdrawD (w : Wallet) (amount : FVal) : Except PyErr Wallet :=
  if fvalLe amount (.num 0) then .error .withdrawNonPositive
  else if fvalLt w.balance amount then .error .withdrawInsufficient
  else w.balanceSet (fvalSubD w.balance amount)

/-- Lookup in a Python dict modelled as an association list (first match;
the insert operation below keeps keys unique). -/
def dictGet {κ α : Type} [DecidableEq κ] : List (κ × α) → κ → Option α
  | [], _ => none
  | (k, v) :: rest, key => if k = key then some v else dictGet rest key

/-- `d[key] = v` on a Python dict: replace the entry if the key is present,
otherwise append it (preserving insertion order). -/
def dictSet {κ α : Type} [DecidableEq κ] : List (κ × α) → κ → α → List (κ × α)
  | [], key, v => [(key, v)]
  | (k, w) :: rest, key, v =>
      if k = key then (key, v) :: rest else (k, w) :: dictSet rest key v

/-- `usecases.RateStorage.get_rate` / `update_rate` read and write the rates
JSON file keyed by `f"{from_currency}_{to_currency}"`. -/
def pairKey (from_currency to_currency : String) : String :=
  from_currency ++ "_" ++ to_currency

/-- State of the rates JSON file behind `usecases.RateStorage`: the cached
`pair_key ↦ rate` entries, plus a log of every `update_rate` call made (so
that write-back behaviour is observable in theorems).  The `updated_at`,
`source` and `last_refresh` metadata the file also holds carry no rate data
and are not modelled; rate values (JSON numbers) are modelled as exact
rationals. -/
structure RateState where
  cache : List (String × ℚ)
  writes : List (String × ℚ)
deriving DecidableEq

/-- `RateStorage.get_rate`, lines 128-148: returns `1.0` when the two codes
are equal, otherwise the cached value under `pair_key`, or `None` (here
`none`, which also covers the missing-file and unreadable-file paths). -/
def get_rate (s : RateState) (from_currency to_currency : String) : Option ℚ :=
  if from_currency = to_currency then some 1
  else dictGet s.cache (pairKey from_currency to_currency)

/-- `RateStorage.update_rate`, lines 150-172: stores the rate in the file
under `pair_key` (and refreshes metadata, not modelled).  The write is also
recorded in the log. -/
def update_rate (s : RateState) (from_currency to_currency : String) (rate : ℚ) :
    RateState :=
  { cache := dictSet s.cache (pairKey from_currency to_currency) rate,
    writes := s.writes ++ [(pairKey from_currency to_currency, rate)] }

/-- The literal `fixed_rates` dict that appears in `calculate_rate`,
`get_portfolio_info`, `buy_currency` and `sell_currency`:
`{'USD': 1.0, 'EUR': 1.18, 'BTC': 0.000025, 'ETH': 0.0003}`. -/
def fixed_rates_dict (code : String) : Option ℚ :=
  if code = "USD" then some 1
  else if code = "EUR" then some (118 / 100)
  else if code = "BTC" then some (25 / 1000000)
  else if code = "ETH" then some (3 / 10000)
  else none

/-- `fixed_rates.get(code, 1.0)`: the dict lookup with default `1.0` for
codes absent from the table. -/
def fixed_rates_get (code : String) : ℚ :=
  (fixed_rates_dict code).getD 1

/-- Python `str.upper()` on the ASCII currency codes: uppercase every
character.  (Defined over the character list so that it reduces in the
kernel; extensionally this is `String.toUpper`.) -/
def pyUpper (s : String) : String :=
  String.mk (s.data.map Char.toUpper)

/-- `usecases.RateUseCase.calculate_rate`, lines 246-286:
1. empty `from_currency` or `to_currency` → `(False, 0.0)`;
2. uppercase both codes; equal codes → `(True, 1.0)` with no storage access;
3. direct lookup of the `(from, to)` pair in the rate storage;
4. on a miss, resolve both legs against `'USD'` (cached leg, else the
   `fixed_rates` constant with default `1.0`) and divide when the to-leg is
   positive;
5. a still-unresolved rate → `(False, 0.0)`;
6. otherwise persist the rate via `update_rate` and return `(True, rate)`.
Note the `update_rate` call (line 284) runs on every success of steps 3-4,
direct cache hits included. -/
def calculate_rate (from_currency to_currency : String) (s : RateState) :
    (Bool × ℚ) × RateState :=
  if from_currency = "" ∨ to_currency = "" then ((false, 0), s)
  else
    let fc := pyUpper from_currency
    let tc := pyUpper to_currency
    if fc = tc then ((true, 1), s)
    else
      let rate? : Option ℚ :=
        match get_rate s fc tc with
        | some r => some r
        | none =>
            let from_rate_to_usd := (get_rate s fc "USD").getD (fixed_rates_get fc)
            let to_rate_to_usd := (get_rate s tc "USD").getD (fixed_rates_get tc)
            if 0 < to_rate_to_usd then some (from_rate_to_usd / to_rate_to_usd)
            else none
      match rate? with
      | none => ((false, 0), s)
      | some rate => ((true, rate), update_rate s fc tc rate)

/-- `currencies.is_valid_currency`: `code.upper() in CURRENCY_REGISTRY`,
where the registry holds exactly USD, EUR, BTC, ETH. -/
def is_valid_currency (code : String) : Bool :=
  pyUpper code = "USD" || pyUpper code = "EUR" ||
  pyUpper code = "BTC" || pyUpper code = "ETH"

/-- `models.Portfolio`: `_user_id` and the `_wallets` dict. -/
structure Portfolio where
  user_id : ℤ
  wallets : List (String × Wallet)
deriving DecidableEq

/-- `Portfolio.add_currency`: creates a zero-balance wallet for the code if
absent (the `Wallet(currency_code)` constructor with default balance `0.0`
always succeeds; `Wallet.init code (.num 0) = .ok ⟨code, .num 0⟩`). -/
def Portfolio.add_currency (p : Portfolio) (currency_code : String) : Portfolio :=
  match dictGet p.wallets currency_code with
  | some _ => p
  | none =>
      { p with
        wallets := p.wallets ++ [(currency_code,
          { currency_code := currency_code, balance := .num 0 })] }

/-- `Portfolio.get_wallet`: `self._wallets.get(currency_code)`. -/
def Portfolio.get_wallet (p : Portfolio) (currency_code : String) : Option Wallet :=
  dictGet p.wallets currency_code

/-- `Portfolio.__init__`: empty wallet dict, then `add_currency` for USD,
BTC, EUR in that order. -/
def Portfolio.new (user_id : ℤ) : Portfolio :=
  (((({ user_id := user_id, wallets := [] } : Portfolio).add_currency
    "USD").add_currency "BTC").add_currency "EUR")

/-- State of the portfolios JSON file behind `usecases.PortfolioStorage`:
per user id, the saved `wallets` mapping of currency code to balance
(a JSON number, modelled as an exact rational). -/
abbrev PortfolioStore : Type := List (ℤ × List (String × ℚ))

/-- The wallet-restoring loop of `PortfolioStorage.load_portfolio`, lines
93-97: for each saved entry, `add_currency` then assign the saved balance
through the wallet's `balance` setter, which raises (propagating out of the
load) on a negative saved value.  The `if wallet:` guard skips an absent
wallet (unreachable after `add_currency`). -/
def load_wallets (p : Portfolio) : List (String × ℚ) → Except PyErr Portfolio
  | [] => .ok p
  | (currency_code, balance) :: rest =>
      let p1 := p.add_currency currency_code
      match p1.get_wallet currency_code with
      | none => load_wallets p1 rest
      | some wallet =>
          match wallet.balanceSet (.num balance) with
          | .error e => .error e
          | .ok wallet' =>
              load_wallets { p1 with
                wallets := dictSet p1.wallets currency_code wallet' } rest

/-- `PortfolioStorage.load_portfolio`, lines 79-99: a fresh
`Portfolio(user_id)` when the user has no saved data (also covering the
missing-file and unreadable-file paths), otherwise the fresh portfolio with
the saved balances restored wallet by wallet. -/
def load_portfolio (store : PortfolioStore) (user_id : ℤ) : Except PyErr Portfolio :=
  match dictGet store user_id with
  | none => .ok (Portfolio.new user_id)
  | some saved => load_wallets (Portfolio.new user_id) saved

/-- `PortfolioStorage.save_portfolio`, lines 101-116.  The body evaluates
`portfolio.user_id` and `portfolio.get_portfolio_info()`, but the
`Portfolio` class of `core/models.py` defines neither attribute (its user
property is named `user`, and no `get_portfolio_info` method exists), so
every call raises `AttributeError` inside the `try`, which the blanket
`except Exception` at line 115 catches and turns into a printed message.
The portfolios file is therefore never modified: the embedding is the
identity on the store. -/
def save_portfolio (store : PortfolioStore) (_portfolio : Portfolio) : PortfolioStore :=
  store

/-- The distinct result strings `buy_currency` / `sell_currency` return,
one constructor per literal (interpolated numbers dropped). -/
inductive Msg where
  /-- `"'amount' должен быть положительным числом"` -/
  | invalidAmount
  /-- `"Не удалось создать кошелек для {currency_code}"` -/
  | walletCreateFailed
  /-- `"USD кошелек не найден. Пожалуйста, внесите средства в USD кошелек."` -/
  | usdWalletMissing
  /-- `"У вас нет кошелька '{currency_code}'. Добавьте валюту: ..."` -/
  | noWalletForCurrency
  /-- `"Не удалось создать USD кошелек"` -/
  | usdWalletCreateFailed
  /-- `"Недостаточно средств в USD кошельке: доступно ... необходимо ..."` -/
  | insufficientUsd
  /-- `"Недостаточно средств: доступно ... необходимо ..."` (sell) -/
  | insufficientFunds
  /-- The `"Внесены средства: ..."` success lines of the USD deposit branch. -/
  | depositSummary
  /-- The `"Покупка произведена: ..."` success lines of buy. -/
  | buySummary
  /-- The `"Продажа произведена: ..."` success lines of sell. -/
  | sellSummary
deriving DecidableEq

/-- The two persistent files the use cases touch. -/
structure SysState where
  portfolios : PortfolioStore
  rates : RateState
deriving DecidableEq

/-- The rate `buy_currency`/`sell_currency` end up using for
`currency_code → USD`: the `calculate_rate` result when it succeeds, else
`fixed_rates.get(currency_code, 1.0)` (lines 376-384 / 431-439). -/
def transaction_rate (currency_code : String) (rs : RateState) : ℚ :=
  let r := (calculate_rate currency_code "USD" rs).1
  if r.1 then r.2 else fixed_rates_get currency_code

/-- `usecases.PortfolioUseCase.buy_currency`, lines 338-404, in
state-passing style.  Returns either the `(success, message)` pair or the
exception that propagates, together with the resulting file state (rate
write-backs persist even when a later wallet operation raises;
`save_portfolio` is the identity, see its docstring).
Paths, in source order: non-positive amount; load (may raise);
the `currency_code == "USD"` deposit branch; otherwise ensure the target
wallet, require the USD wallet, resolve the rate (mutating the rate file),
check funds, deposit into the target and withdraw the USD cost (either may
raise), save.  The two `if not wallet` guards are unreachable after
`add_currency` / for the always-present USD wallet but are modelled
faithfully. -/
def buy_currency (st : SysState) (user_id : ℤ) (currency_code : String)
    (amount : FVal) : Except PyErr (Bool × Msg) × SysState :=
  if fvalLe amount (.num 0) then (.ok (false, .invalidAmount), st)
  else
    match load_portfolio st.portfolios user_id with
    | .error e => (.error e, st)
    | .ok portfolio =>
      if currency_code = "USD" then
        let portfolio := portfolio.add_currency currency_code
        match portfolio.get_wallet currency_code with
        | none => (.ok (false, .walletCreateFailed), st)
        | some wallet =>
          match wallet.deposit amount with
          | .error e => (.error e, st)
          | .ok wallet' =>
            let portfolio := { portfolio with
              wallets := dictSet portfolio.wallets currency_code wallet' }
            (.ok (true, .depositSummary),
              { st with portfolios := save_portfolio st.portfolios portfolio })
      else
        let portfolio := portfolio.add_currency currency_code
        match portfolio.get_wallet currency_code with
        | none => (.ok (false, .walletCreateFailed), st)
        | some target_wallet =>
          match portfolio.get_wallet "USD" with
          | none => (.ok (false, .usdWalletMissing), st)
          | some usd_wallet =>
            let rates' := (calculate_rate currency_code "USD" st.rates).2
            let rate := transaction_rate currency_code st.rates
            let cost_in_usd := fvalMul amount (.num rate)
            if fvalLt usd_wallet.balance cost_in_usd then
              (.ok (false, .insufficientUsd), { st with rates := rates' })
            else
              match target_wallet.deposit amount with
              | .error e => (.error e, { st with rates := rates' })
              | .ok target' =>
                let portfolio := { portfolio with
                  wallets := dictSet portfolio.wallets currency_code target' }
                match usd_wallet.withdraw cost_in_usd with
                | .error e => (.error e, { st with rates := rates' })
                | .ok usd' =>
                  let portfolio := { portfolio with
                    wallets := dictSet portfolio.wallets "USD" usd' }
                  (.ok (true, .buySummary),
                    { portfolios := save_portfolio st.portfolios portfolio,
                      rates := rates' })

/-- `usecases.PortfolioUseCase.sell_currency`, lines 406-457, in
state-passing style; see `buy_currency` for the conventions.
Paths, in source order: non-positive amount; load (may raise); no wallet
for the code (the membership test and the `if not target_wallet` guard are
the same dict lookup); USD wallet auto-creation (unreachable, the
constructor always adds USD); insufficient target balance — checked BEFORE
rate resolution, so this path does not touch the rate file; resolve the
rate (mutating the rate file); withdraw from the target and deposit the USD
revenue (either may raise), save.  When `currency_code == "USD"` the target
and USD wallets are the same Python object, so the deposit acts on the
wallet already mutated by the withdraw; the model re-reads it in that
case. -/
def sell_currency (st : SysState) (user_id : ℤ) (currency_code : String)
    (amount : FVal) : Except PyErr (Bool × Msg) × SysState :=
  if fvalLe amount (.num 0) then (.ok (false, .invalidAmount), st)
  else
    match load_portfolio st.portfolios user_id with
    | .error e => (.error e, st)
    | .ok portfolio =>
      match portfolio.get_wallet currency_code with
      | none => (.ok (false, .noWalletForCurrency), st)
      | some target_wallet =>
        -- `if not usd_wallet:` auto-create retry, lines 422-426: on a miss,
        -- `add_currency("USD")` and fetch again; only a second miss
        -- (impossible after `add_currency`) returns the failure message.
        let pu : Portfolio × Option Wallet :=
          match portfolio.get_wallet "USD" with
          | some w => (portfolio, some w)
          | none =>
              let p2 := portfolio.add_currency "USD"
              (p2, p2.get_wallet "USD")
        let portfolio := pu.1
        match pu.2 with
        | none => (.ok (false, .usdWalletCreateFailed), st)
        | some usd_wallet =>
          if fvalLt target_wallet.balance amount then
            (.ok (false, .insufficientFunds), st)
          else
            let rates' := (calculate_rate currency_code "USD" st.rates).2
            let rate := transaction_rate currency_code st.rates
            let revenue_in_usd := fvalMul amount (.num rate)
            match target_wallet.withdraw amount with
            | .error e => (.error e, { st with rates := rates' })
            | .ok target' =>
              let portfolio := { portfolio with
                wallets := dictSet portfolio.wallets currency_code target' }
              let usd_now := if currency_code = "USD" then target' else usd_wallet
              match usd_now.deposit revenue_in_usd with
              | .error e => (.error e, { st with rates := rates' })
              | .ok usd' =>
                let portfolio := { portfolio with
                  wallets := dictSet portfolio.wallets "USD" usd' }
                (.ok (true, .sellSummary),
                  { portfolios := save_portfolio st.portfolios portfolio,
                    rates := rates' })

/-- What a CLI buy/sell handler reports for one invocation. -/
inductive CliOut where
  /-- `"Error: Unsupported currency '{code}'"`, printed before the use case
  is invoked. -/
  | unsupported
  /-- The `(success, message)` pair returned by the use case. -/
  | result (r : Bool × Msg)
  /-- An exception raised by the use case and caught by the handler's
  `except` clauses. -/
  | caught (e : PyErr)
deriving DecidableEq

/-- `cli/interface.py _handle_buy`, lines 229-255: validates
`is_valid_currency(args.currency)` BEFORE calling
`PortfolioUseCase.buy_currency` (the use case itself performs no
registration check), passes `args.currency.upper()`, and catches every
exception the use case raises.  The login check and the username→user-id
resolution are session plumbing outside the modelled core. -/
def handle_buy (st : SysState) (user_id : ℤ) (currency : String)
    (amount : FVal) : CliOut × SysState :=
  if is_valid_currency currency = false then (.unsupported, st)
  else
    match buy_currency st user_id (pyUpper currency) amount with
    | (.ok r, st') => (.result r, st')
    | (.error e, st') => (.caught e, st')

/-- `cli/interface.py _handle_sell`, lines 257-283; see `handle_buy`. -/
def handle_sell (st : SysState) (user_id : ℤ) (currency : String)
    (amount : FVal) : CliOut × SysState :=
  if is_valid_currency currency = false then (.unsupported, st)
  else
    match sell_currency st user_id (pyUpper currency) amount with
    | (.ok r, st') => (.result r, st')
    | (.error e, st') => (.caught e, st')

/-- The wallet invariant of the spec: the stored balance is a finite,
non-NaN, non-negative number (`FVal.num q` with `0 ≤ q`). -/
def WalletInv (w : Wallet) : Prop :=
  ∃ q : ℚ, w.balance = FVal.num q ∧ 0 ≤ q

/-- The rate actually used by a buy/sell for `code → USD` given the rate
file contents, as a standalone abbreviation for stating claims (identical
to the `transaction_rate` the operations call). -/
def resolved_rate (code : String) (rs : RateState) : ℚ :=
  transaction_rate code rs

/-! ## Helper lemmas -/

lemma balanceSet_ok_inv {w : Wallet} {v : FVal} {w' : Wallet}
    (h : w.balanceSet v = .ok w') : WalletInv w' := by
  cases v with
  | num q =>
      by_cases hq : q < 0
      · simp [Wallet.balanceSet, fvalLt, hq] at h
      · simp [Wallet.balanceSet, fvalLt, hq, FVal.isNaN, FVal.isInfinite] at h
        exact ⟨q, by rw [← h], le_of_not_lt hq⟩
  | nan => simp [Wallet.balanceSet, fvalLt, FVal.isNaN, FVal.isInfinite] at h
  | inf => simp [Wallet.balanceSet, fvalLt, FVal.isNaN, FVal.isInfinite] at h
  | ninf => simp [Wallet.balanceSet, fvalLt, FVal.isNaN, FVal.isInfinite] at h

lemma fixed_rates_get_pos (c : String) : 0 < fixed_rates_get c := by
  unfold fixed_rates_get fixed_rates_dict
  split_ifs <;> norm_num

lemma dictGet_mem {κ α : Type} [DecidableEq κ] {l : List (κ × α)} {k : κ} {v : α}
    (h : dictGet l k = some v) : (k, v) ∈ l := by
  induction l with
  | nil => simp [dictGet] at h
  | cons hd tl ih =>
      unfold dictGet at h
      split at h
      · cases h; rename_i heq; subst heq; simp_all
      · simp [ih h]

lemma leg_pos {s : RateState} (hpos : ∀ k r, (k, r) ∈ s.cache → 0 < r) (c : String) :
    0 < (get_rate s c "USD").getD (fixed_rates_get c) := by
  cases h : get_rate s c "USD" with
  | none => simpa using fixed_rates_get_pos c
  | some r =>
      simp only [Option.getD_some]
      unfold get_rate at h
      split at h
      · cases h; norm_num
      · exact hpos _ _ (dictGet_mem h)

lemma dictGet_append_ne {κ α : Type} [DecidableEq κ] (l : List (κ × α)) {c k : κ}
    (w : α) (h : c ≠ k) : dictGet (l ++ [(c, w)]) k = dictGet l k := by
  induction l with
  | nil => simp [dictGet, h]
  | cons hd tl ih =>
      unfold dictGet
      split <;> simp_all

lemma dictGet_append_self {κ α : Type} [DecidableEq κ] {l : List (κ × α)} {c : κ}
    (w : α) (h : dictGet l c = none) : dictGet (l ++ [(c, w)]) c = some w := by
  induction l with
  | nil => simp [dictGet]
  | cons hd tl ih =>
      unfold dictGet at h ⊢
      split at h
      · cases h
      · simp_all [dictGet]

lemma add_currency_get_self (p : Portfolio) (c : String) :
    ∃ w, (p.add_currency c).get_wallet c = some w := by
  unfold Portfolio.add_currency Portfolio.get_wallet
  cases h : dictGet p.wallets c with
  | some w => exact ⟨w, h⟩
  | none => exact ⟨_, dictGet_append_self _ h⟩

lemma add_currency_get_ne (p : Portfolio) {c k : String} (h : c ≠ k) :
    (p.add_currency c).get_wallet k = p.get_wallet k := by
  unfold Portfolio.add_currency Portfolio.get_wallet
  cases hd : dictGet p.wallets c with
  | some w => rfl
  | none => exact dictGet_append_ne _ _ h

/-! ## Claims C8, C9, C10: the Wallet class -/

set_option maxRecDepth 4000 in
unseal Rat.mul Rat.inv Rat.add Rat.sub in
/-- Counterexample to C8 as stated: under the IEEE-754 binary64 arithmetic
the program actually runs, the round-trip is INEXACT at ordinary inputs.
With starting balance `0.1` (the double `3602879701896397 / 2 ^ 55`) and
amount `0.2` (the double `3602879701896397 / 2 ^ 54`), deposit-then-
withdraw succeeds but leaves `(0.1 + 0.2) - 0.2 = 0.10000000000000003 =
1801439850948199 / 2 ^ 54 ≠ 0.1`, exactly as CPython computes it.  The
first two conjuncts certify that the literals are the binary64 roundings
of `0.1` and `0.2`. -/
theorem deposit_withdraw_roundtrip_double_counterexample :
    roundB64 (1 / 10) = 3602879701896397 / 2 ^ 55 ∧
    roundB64 (2 / 10) = 3602879701896397 / 2 ^ 54 ∧
    (Wallet.depositD ⟨"USD", .num (3602879701896397 / 2 ^ 55)⟩
        (.num (3602879701896397 / 2 ^ 54))).bind
      (fun w => w.withdrawD (.num (3602879701896397 / 2 ^ 54)))
      = .ok ⟨"USD", .num (1801439850948199 / 2 ^ 54)⟩ ∧
    (1801439850948199 / 2 ^ 54 : ℚ) ≠ 3602879701896397 / 2 ^ 55 := by
  decide

/-- C8 (amended): for every wallet with starting balance `b ≥ 0` and every
positive finite amount `a`, `deposit(a)` followed by `withdraw(a)` succeeds
and leaves the balance equal to `b` when the float arithmetic incurs no
rounding error (exact-arithmetic semantics, `fvalAdd`/`fvalSub`); under
the program's IEEE-754 doubles the stored result can differ from `b` by a
rounding step, as the counterexample shows, so the round-trip holds only
up to floating-point rounding. -/
theorem deposit_withdraw_roundtrip (c : String) (b a : ℚ) (hb : 0 ≤ b) (ha : 0 < a) :
    (Wallet.deposit ⟨c, .num b⟩ (.num a)).bind (fun w => w.withdraw (.num a))
      = .ok ⟨c, .num b⟩ := by
  have h1 : ¬ a ≤ 0 := not_le.mpr ha
  have h2 : ¬ b + a < 0 := by linarith
  have h3 : ¬ b + a < a := by linarith
  simp [Wallet.deposit, Wallet.withdraw, Wallet.balanceSet, fvalLe, fvalLt,
    fvalAdd, fvalSub, fvalNeg, FVal.isNaN, FVal.isInfinite, h1, h2, h3,
    Except.bind]
  linarith

/-- Witness for C8 at `c = "USD"`, `b = 0`, `a = 1`. -/
theorem deposit_withdraw_roundtrip_witness :
    (Wallet.deposit ⟨"USD", .num 0⟩ (.num 1)).bind (fun w => w.withdraw (.num 1))
      = .ok ⟨"USD", .num 0⟩ :=
  deposit_withdraw_roundtrip "USD" 0 1 (by norm_num) (by norm_num)

/-- C9: the balance is a non-negative, finite, non-NaN number after
construction and after every call to `deposit`, `withdraw` or the `balance`
setter, whether the call succeeds or fails: every value that would violate
the invariant is rejected by the setter before being stored, and a rejected
call leaves the previous balance in place. -/
theorem wallet_invariant_preserved :
    (∀ c b w, Wallet.init c b = .ok w → WalletInv w) ∧
    (∀ (w : Wallet) a, WalletInv w → WalletInv (w.depositRun a).1) ∧
    (∀ (w : Wallet) a, WalletInv w → WalletInv (w.withdrawRun a).1) ∧
    (∀ (w : Wallet) a, WalletInv w → WalletInv (w.balanceSetRun a).1) := by
  refine ⟨fun c b w h => balanceSet_ok_inv h, fun w a hw => ?_,
    fun w a hw => ?_, fun w a hw => ?_⟩
  · cases h : w.deposit a with
    | error e => simpa [Wallet.depositRun, h] using hw
    | ok w' =>
        simp only [Wallet.depositRun, h]
        unfold Wallet.deposit at h
        split at h
        · simp at h
        · exact balanceSet_ok_inv h
  · cases h : w.withdraw a with
    | error e => simpa [Wallet.withdrawRun, h] using hw
    | ok w' =>
        simp only [Wallet.withdrawRun, h]
        unfold Wallet.withdraw at h
        split at h
        · simp at h
        · split at h
          · simp at h
          · exact balanceSet_ok_inv h
  · cases h : w.balanceSet a with
    | error e => simpa [Wallet.balanceSetRun, h] using hw
    | ok w' =>
        simp only [Wallet.balanceSetRun, h]
        exact balanceSet_ok_inv h

/-- Witness for C9: depositing 5 into a freshly constructed zero-balance
wallet preserves the invariant. -/
theorem wallet_invariant_preserved_witness :
    WalletInv ((Wallet.depositRun ⟨"USD", .num 0⟩ (.num 5))).1 :=
  wallet_invariant_preserved.2.1 _ _ ⟨0, rfl, le_refl 0⟩

/-- C10 (implicit): whenever `deposit`, `withdraw` or the `balance` setter
raises, the wallet is exactly as before the call — the only field
assignment in all three operations is the setter's final store, which runs
after every check, so failed wallet operations are atomic. -/
theorem wallet_failure_atomic :
    (∀ (w : Wallet) a, (w.depositRun a).2 = false → (w.depositRun a).1 = w) ∧
    (∀ (w : Wallet) a, (w.withdrawRun a).2 = false → (w.withdrawRun a).1 = w) ∧
    (∀ (w : Wallet) a, (w.balanceSetRun a).2 = false → (w.balanceSetRun a).1 = w) := by
  refine ⟨fun w a h => ?_, fun w a h => ?_, fun w a h => ?_⟩
  · cases hd : w.deposit a <;> simp [Wallet.depositRun, hd] at h ⊢
  · cases hd : w.withdraw a <;> simp [Wallet.withdrawRun, hd] at h ⊢
  · cases hd : w.balanceSet a <;> simp [Wallet.balanceSetRun, hd] at h ⊢

/-- Witness for C10: a withdrawal of a negative amount fails and leaves the
balance at 7. -/
theorem wallet_failure_atomic_witness :
    (Wallet.withdrawRun ⟨"USD", .num 7⟩ (.num (-1))).1 = ⟨"USD", .num 7⟩ :=
  wallet_failure_atomic.2.1 _ _ (by decide)

/-! ## Claim C7: identity rate resolution -/

/-- C7: for every non-empty currency code `X` (whatever its case),
`calculate_rate X X` returns `(True, 1.0)` and leaves the rate file
untouched; since the result and final state are the same for EVERY rate
state `s`, the identity case in particular performs no observable read of
and no write to the rate storage. -/
theorem calculate_rate_identity (x : String) (s : RateState) (hx : x ≠ "") :
    calculate_rate x x s = ((true, 1), s) := by
  simp [calculate_rate, hx]

/-- Witness for C7 at `X = "BTC"` over a non-trivial cache. -/
theorem calculate_rate_identity_witness :
    calculate_rate "BTC" "BTC" ⟨[("BTC_USD", 7)], []⟩
      = ((true, 1), ⟨[("BTC_USD", 7)], []⟩) :=
  calculate_rate_identity "BTC" ⟨[("BTC_USD", 7)], []⟩ (by decide)

/-! ## Claim C1: positivity of resolved rates -/

/-- Counterexample to C1 as stated: with `0.0` stored in the cache for the
pair `(EUR, BTC)`, `calculate_rate` finds it by direct lookup and returns
it as a valid rate — `ok = true` with rate exactly `0`.  The claim's
"regardless of what value is stored in the cache for the pair" is
therefore false. -/
theorem calculate_rate_cached_zero_ok :
    get_rate ⟨[("EUR_BTC", 0)], []⟩ "EUR" "BTC" = some 0 ∧
    (calculate_rate "EUR" "BTC" ⟨[("EUR_BTC", 0)], []⟩).1 = (true, 0) := by
  decide

/-- C1 (amended): whenever every rate stored in the cache is positive, a
successful `calculate_rate` returns a positive rate; the code itself never
introduces a zero or negative value (the fixed table and its default are
positive and the cross-rate guard requires a positive to-leg), but it does
return a cached non-positive value verbatim. -/
theorem calculate_rate_pos_of_cache_pos (fc tc : String) (s : RateState)
    (hpos : ∀ k r, (k, r) ∈ s.cache → 0 < r)
    (h : (calculate_rate fc tc s).1.1 = true) :
    0 < (calculate_rate fc tc s).1.2 := by
  unfold calculate_rate at h ⊢
  by_cases h0 : fc = "" ∨ tc = ""
  · simp [h0] at h
  · rw [if_neg h0] at h ⊢
    by_cases hid : pyUpper fc = pyUpper tc
    · simp [hid]
    · simp only [if_neg hid] at h ⊢
      cases hdir : get_rate s (pyUpper fc) (pyUpper tc) with
      | some r =>
          simp only [hdir] at h ⊢
          have : 0 < r := by
            unfold get_rate at hdir
            rw [if_neg hid] at hdir
            exact hpos _ _ (dictGet_mem hdir)
          simpa using this
      | none =>
          simp only [hdir] at h ⊢
          by_cases htl : 0 < (get_rate s (pyUpper tc) "USD").getD (fixed_rates_get (pyUpper tc))
          · simp only [if_pos htl] at h ⊢
            simpa using div_pos (leg_pos hpos (pyUpper fc)) htl
          · simp [if_neg htl] at h

/-- Witness for C1 (amended) on a positive one-entry cache. -/
theorem calculate_rate_pos_of_cache_pos_witness :
    0 < (calculate_rate "EUR" "BTC" ⟨[("EUR_BTC", 2)], []⟩).1.2 :=
  calculate_rate_pos_of_cache_pos "EUR" "BTC" ⟨[("EUR_BTC", 2)], []⟩
    (by
      rintro k r h
      simp only [List.mem_singleton, Prod.mk.injEq] at h
      rw [h.2]
      norm_num)
    (by decide)

/-! ## Claim C4: write-back behaviour -/

/-- Counterexample to C4 as stated: with `(EUR, BTC) ↦ 2` present in the
cache, resolution succeeds by DIRECT lookup, yet `update_rate` is still
called (the write-back at usecases.py line 284 is outside the cache-miss
branch), so the write log is non-empty where the claim requires no
write. -/
theorem calculate_rate_writes_on_direct_hit :
    get_rate ⟨[("EUR_BTC", 2)], []⟩ "EUR" "BTC" = some 2 ∧
    (calculate_rate "EUR" "BTC" ⟨[("EUR_BTC", 2)], []⟩).2.writes = [("EUR_BTC", 2)] := by
  decide

/-- C4 (amended): rate resolution performs a write-back to the rate
storage on EVERY successful resolution of a non-identity pair — direct
cache hits included, not only the cross-rate/static tiers — and the
write-back stores exactly one entry, under the key `(from, to)` (never the
inverse pair and never the intermediate USD legs); on failure or on the
identity case nothing is written. -/
theorem calculate_rate_writeback (fc tc : String) (s : RateState) :
    ((calculate_rate fc tc s).1.1 = true → pyUpper fc ≠ pyUpper tc →
      (calculate_rate fc tc s).2.writes =
        s.writes ++ [(pairKey (pyUpper fc) (pyUpper tc), (calculate_rate fc tc s).1.2)]) ∧
    ((calculate_rate fc tc s).1.1 = false ∨ pyUpper fc = pyUpper tc →
      (calculate_rate fc tc s).2.writes = s.writes) := by
  constructor
  · intro hok hne
    unfold calculate_rate at hok ⊢
    by_cases h0 : fc = "" ∨ tc = ""
    · simp [h0] at hok
    · rw [if_neg h0] at hok ⊢
      rw [if_neg hne] at hok ⊢
      cases hdir : get_rate s (pyUpper fc) (pyUpper tc) with
      | some r => simp [hdir, update_rate]
      | none =>
          simp only [hdir] at hok ⊢
          by_cases htl : 0 < (get_rate s (pyUpper tc) "USD").getD (fixed_rates_get (pyUpper tc))
          · simp [if_pos htl, update_rate]
          · simp [if_neg htl] at hok
  · intro hcase
    unfold calculate_rate
    by_cases h0 : fc = "" ∨ tc = ""
    · simp [h0]
    · rw [if_neg h0]
      by_cases hid : pyUpper fc = pyUpper tc
      · simp [hid]
      · rw [if_neg hid]
        rcases hcase with hfail | hid2
        · unfold calculate_rate at hfail
          rw [if_neg h0, if_neg hid] at hfail
          cases hdir : get_rate s (pyUpper fc) (pyUpper tc) with
          | some r => simp [hdir] at hfail
          | none =>
              simp only [hdir] at hfail ⊢
              by_cases htl : 0 < (get_rate s (pyUpper tc) "USD").getD (fixed_rates_get (pyUpper tc))
              · simp [if_pos htl] at hfail
              · simp [if_neg htl]
        · exact absurd hid2 hid

unseal Rat.mul Rat.inv Rat.add Rat.sub in
/-- Witness for C4 (amended): a successful cross-tier resolution writes
exactly the `(from, to)` key. -/
theorem calculate_rate_writeback_witness :
    (calculate_rate "EUR" "BTC" ⟨[], []⟩).2.writes =
      [] ++ [(pairKey (pyUpper "EUR") (pyUpper "BTC"),
        (calculate_rate "EUR" "BTC" ⟨[], []⟩).1.2)] :=
  (calculate_rate_writeback "EUR" "BTC" ⟨[], []⟩).1 (by decide) (by decide)

/-! ## Claim C6: failure of rate resolution -/

unseal Rat.mul Rat.inv Rat.add Rat.sub in
/-- Counterexample to C6 as stated: `XYZ` has no entry in the static
fallback table, the cache is empty, yet `calculate_rate "EUR" "XYZ"`
SUCCEEDS with rate `1.18 / 1.0` because `fixed_rates.get(code, 1.0)`
substitutes the default `1.0` for the undefined to-leg; the claim's
"undefined ⇒ resolution fails" is therefore false. -/
theorem calculate_rate_defaults_missing_leg :
    fixed_rates_dict "XYZ" = none ∧
    (calculate_rate "EUR" "XYZ" ⟨[], []⟩).1 = (true, 59 / 50) := by
  decide

/-- C6 (amended): when the `(from, to)` pair is absent from the cache,
resolution fails (`ok = false`, nothing written) exactly in the reachable
case that the to-leg RESOLVES FROM THE CACHE to a non-positive value; a
to-currency missing from both the cache and the static table instead gets
the fallback default `1.0`, which is positive, so resolution succeeds
there. -/
theorem calculate_rate_fails_on_nonpos_leg (fc tc : String) (s : RateState)
    (h0 : ¬(fc = "" ∨ tc = "")) (hne : pyUpper fc ≠ pyUpper tc)
    (hdir : get_rate s (pyUpper fc) (pyUpper tc) = none)
    (t : ℚ) (hleg : get_rate s (pyUpper tc) "USD" = some t) (ht : t ≤ 0) :
    calculate_rate fc tc s = ((false, 0), s) := by
  unfold calculate_rate
  rw [if_neg h0, if_neg hne]
  simp only [hdir, hleg, Option.getD_some]
  rw [if_neg (not_lt.mpr ht)]

/-- Witness for C6 (amended): a cached `0` for `(XYZ, USD)` makes
`EUR → XYZ` resolution fail. -/
theorem calculate_rate_fails_on_nonpos_leg_witness :
    calculate_rate "EUR" "XYZ" ⟨[("XYZ_USD", 0)], []⟩
      = ((false, 0), ⟨[("XYZ_USD", 0)], []⟩) :=
  calculate_rate_fails_on_nonpos_leg "EUR" "XYZ" ⟨[("XYZ_USD", 0)], []⟩
    (by decide) (by decide) (by decide) 0 (by decide) le_rfl

/-! ## Claim C2: insufficient funds on buy -/

/-- C2: for every loaded portfolio whose USD wallet balance is strictly
below `amount * rate` (with `rate` the rate the operation resolves for
`code → USD`), `buy_currency` of a positive amount of a non-USD code
returns `success = false` with the insufficient-funds message, and the
persisted portfolio store is unchanged — so neither the target wallet's
nor the USD wallet's persisted balance changes. -/
theorem buy_insufficient_funds (st : SysState) (uid : ℤ) (code : String) (a : ℚ)
    (hcode : code ≠ "USD") (ha : 0 < a)
    (p : Portfolio) (hload : load_portfolio st.portfolios uid = .ok p)
    (usdW : Wallet) (husd : p.get_wallet "USD" = some usdW)
    (ub : ℚ) (hub : usdW.balance = .num ub)
    (hlt : ub < a * resolved_rate code st.rates) :
    (buy_currency st uid code (.num a)).1 = .ok (false, .insufficientUsd) ∧
    (buy_currency st uid code (.num a)).2.portfolios = st.portfolios := by
  have hle : fvalLe (FVal.num a) (FVal.num 0) = false := by
    simp [fvalLe]
    linarith
  obtain ⟨tw, htw⟩ := add_currency_get_self p code
  have husd2 : (p.add_currency code).get_wallet "USD" = some usdW := by
    rw [add_currency_get_ne p hcode]
    exact husd
  have hltb : fvalLt usdW.balance
      (fvalMul (FVal.num a) (FVal.num (transaction_rate code st.rates))) = true := by
    rw [hub]
    show fvalLt (FVal.num ub) (FVal.num (a * transaction_rate code st.rates)) = true
    simp [fvalLt]
    exact hlt
  unfold buy_currency
  simp only [hle, Bool.false_eq_true, if_false, hload, hcode, if_neg, htw, husd2,
    hltb, if_true]
  simp [hcode]

unseal Rat.mul Rat.inv Rat.add Rat.sub in
/-- Witness for C2: a USD balance of 5 cannot buy 1000000 BTC at the
static-fallback rate 0.000025 (cost 25). -/
theorem buy_insufficient_funds_witness :
    (buy_currency ⟨[(1, [("USD", 5)])], ⟨[], []⟩⟩ 1 "BTC" (.num 1000000)).1
      = .ok (false, .insufficientUsd) ∧
    (buy_currency ⟨[(1, [("USD", 5)])], ⟨[], []⟩⟩ 1 "BTC" (.num 1000000)).2.portfolios
      = [(1, [("USD", 5)])] :=
  buy_insufficient_funds ⟨[(1, [("USD", 5)])], ⟨[], []⟩⟩ 1 "BTC" 1000000
    (by decide) (by norm_num)
    ⟨1, [("USD", ⟨"USD", .num 5⟩), ("BTC", ⟨"BTC", .num 0⟩), ("EUR", ⟨"EUR", .num 0⟩)]⟩
    (by decide)
    ⟨"USD", .num 5⟩ (by decide) 5 rfl (by decide)

/-! ## Claim C3: outcome discipline of buy/sell -/

unseal Rat.mul Rat.inv Rat.add Rat.sub in
/-- Counterexample to C3 as stated: with `0.0` cached for `(BTC, USD)` and
a portfolio holding 5 BTC, `sell_currency` of 1 BTC resolves the rate `0`,
computes a zero USD revenue, and `usd_wallet.deposit(0.0)` raises
`ValueError` — the exception propagates out of `sell_currency` instead of
a `(success, message)` pair being returned. -/
theorem sell_raises_on_zero_cached_rate :
    (sell_currency ⟨[(1, [("BTC", 5)])], ⟨[("BTC_USD", 0)], []⟩⟩ 1 "BTC" (.num 1)).1
      = .error .depositNonPositive := by
  decide

/-- C3 (amended): `buy_currency` and `sell_currency` always terminate with
either a `(success, message)` pair or a propagating wallet-layer
`ValueError` (reachable, e.g., when a non-positive cached rate makes the
paired deposit/withdraw amount non-positive); on every path that RETURNS
with `success = false`, the persisted portfolio store is unchanged — for
sell the whole persisted state is unchanged, while buy's
insufficient-funds path has already written the resolved rate into the
rate cache before the funds check. -/
theorem failure_returns_do_not_mutate_portfolios (st : SysState) (uid : ℤ)
    (code : String) (a : FVal) :
    (∀ m st', buy_currency st uid code a = (.ok (false, m), st') →
      st'.portfolios = st.portfolios) ∧
    (∀ m st', sell_currency st uid code a = (.ok (false, m), st') → st' = st) := by
  constructor
  · intro m st' h
    unfold buy_currency at h
    iterate 12 (all_goals (try (simp only [] at h)); all_goals (try (split at h)))
    all_goals (try (simp only [Prod.mk.injEq] at h))
    all_goals (try (obtain ⟨h1, h2⟩ := h; subst h2))
    all_goals (first | rfl | simp_all [save_portfolio])
  · intro m st' h
    unfold sell_currency at h
    iterate 12 (all_goals (try (simp only [] at h)); all_goals (try (split at h)))
    all_goals (try (simp only [Prod.mk.injEq] at h))
    all_goals (try (obtain ⟨h1, h2⟩ := h; subst h2))
    all_goals (first | rfl | simp_all [save_portfolio])

unseal Rat.mul Rat.inv Rat.add Rat.sub in
/-- Witness for C3 (amended), at buy's insufficient-funds path (which does
write the `EUR → USD` fallback rate into the cache, while the portfolio
store is untouched). -/
theorem failure_returns_do_not_mutate_portfolios_witness :
    (SysState.portfolios ⟨[(1, [])],
        ⟨[("EUR_USD", 59 / 50)], [("EUR_USD", 59 / 50)]⟩⟩) = [(1, [])] :=
  (failure_returns_do_not_mutate_portfolios ⟨[(1, [])], ⟨[], []⟩⟩ 1 "EUR"
    (.num 10)).1 .insufficientUsd
    ⟨[(1, [])], ⟨[("EUR_USD", 59 / 50)], [("EUR_USD", 59 / 50)]⟩⟩ (by decide)

/-! ## Claim C5: where the currency-registration check lives -/

unseal Rat.mul Rat.inv Rat.add Rat.sub in
/-- Counterexample to C5 as stated: `XYZ` is not in the currency registry,
yet `buy_currency` of 10 XYZ on a portfolio with 100 USD SUCCEEDS (the
use case performs no registration check; the unknown code falls back to
the default rate 1.0 and the order is simply filled). -/
theorem buy_succeeds_for_unregistered_code :
    is_valid_currency "XYZ" = false ∧
    (buy_currency ⟨[(1, [("USD", 100)])], ⟨[], []⟩⟩ 1 "XYZ" (.num 10)).1
      = .ok (true, .buySummary) := by
  decide

/-- C5 (amended): the currency-registration check is performed by the CLI
buy/sell handlers BEFORE the transaction operation is invoked — an
unregistered code is rejected with an unsupported-currency report and no
state is touched; `buy_currency`/`sell_currency` themselves contain no
registration check (buying an unregistered code with sufficient funds
succeeds, as the counterexample shows). -/
theorem handlers_reject_unregistered (st : SysState) (uid : ℤ) (code : String)
    (a : FVal) (h : is_valid_currency code = false) :
    handle_buy st uid code a = (.unsupported, st) ∧
    handle_sell st uid code a = (.unsupported, st) := by
  constructor <;> simp [handle_buy, handle_sell, h]

/-- Witness for C5 (amended) at the unregistered code `XYZ`. -/
theorem handlers_reject_unregistered_witness :
    handle_buy ⟨[(1, [("USD", 100)])], ⟨[], []⟩⟩ 1 "XYZ" (.num 10)
      = (.unsupported, ⟨[(1, [("USD", 100)])], ⟨[], []⟩⟩) ∧
    handle_sell ⟨[(1, [("USD", 100)])], ⟨[], []⟩⟩ 1 "XYZ" (.num 10)
      = (.unsupported, ⟨[(1, [("USD", 100)])], ⟨[], []⟩⟩) :=
  handlers_reject_unregistered ⟨[(1, [("USD", 100)])], ⟨[], []⟩⟩ 1 "XYZ"
    (.num 10) (by decide)

end ValuteTradeHub
